import Mathlib

/-!
Verification of the pre-commit hook scripts in `.pre-commit-hooks/`:
`check_for_panics.py`, `check_sql_ordering.py`,
`fail_extremely_long_files.py`, `warn_long_files.py`.

Each script is a line-by-line scanner over a list of file paths.  We embed
the scripts shallowly: file contents become explicit data (the bytes read
for binary/BOM detection, the decoded lines), Python regular expressions
become a small executable matcher over an AST mirroring each concrete
pattern, `fnmatch` becomes an executable glob matcher, and the main loop of each script becomes a fold over the file list producing the findings and the
process exit status.
-/

/-! ### Python string primitives used by the scripts -/

/-- ASCII whitespace as recognised by the Python function `str.strip` and the regex
class `\s` (the inputs considered here are ASCII). -/
def pyIsSpace (c : Char) : Bool :=
  c = ' ' || c = '\t' || c = '\n' || c = '\x0d' || c = '\x0b' || c = '\x0c'

/-- A word character for the regex class `\b` boundary test (`\w`): ASCII
alphanumeric or underscore. -/
def isWordChar (c : Char) : Bool :=
  c.isAlphanum || c = '_'

/-- Python `str.upper` restricted to ASCII. -/
def upperStr (s : String) : String :=
  ⟨s.data.map Char.toUpper⟩

/-- The test `startsList needle hay`: `needle` is a leading segment of `hay`
(Python `bytes.startswith` / the base case of substring search). -/
def startsList {α : Type} [DecidableEq α] : List α → List α → Bool
  | [], _ => true
  | _ :: _, [] => false
  | a :: as, b :: bs => if a = b then startsList as bs else false

/-- The test `containsSeq needle hay`: the Python test `needle in hay` on sequences. -/
def containsSeq {α : Type} [DecidableEq α] (needle hay : List α) : Bool :=
  hay.tails.any (fun t => startsList needle t)

/-- The Python substring test `needle in hay` on strings. -/
def containsSub (needle hay : String) : Bool :=
  containsSeq needle.data hay.data

/-- Python `str.endswith`. -/
def strEndsWith (s suf : String) : Bool :=
  startsList suf.data.reverse s.data.reverse

/-- Split a character list at newline characters, Python
`str.splitlines` style: a trailing newline does not produce a final empty
line (text read in Python text mode is already `\n`-normalised, so only
`'\n'` needs to be recognised). -/
def splitChars : List Char → List (List Char)
  | [] => []
  | c :: rest =>
    if c = '\n' then [] :: splitChars rest
    else
      match splitChars rest with
      | [] => [[c]]
      | l :: ls => (c :: l) :: ls

/-- Python `content.splitlines()`. -/
def splitLinesStr (s : String) : List String :=
  (splitChars s.data).map (fun l => ⟨l⟩)

/-- Python truthiness of `line.strip()`: the line holds at least one
non-whitespace character. -/
def hasNonWS (s : String) : Bool :=
  s.data.any (fun c => !pyIsSpace c)

/-- Python `sum(1 for line in f if line.strip())`: the number of lines with at
least one non-whitespace character. -/
def countNonEmpty (lines : List String) : Nat :=
  lines.countP (fun l => hasNonWS l)

/-! ### A small regex matcher

The scripts use `re.search` with a handful of concrete patterns.  Every
`*` or `+` in those patterns governs a single-character class, so a regex
here is a list of tokens, each token being a character class, a starred or
plussed class, a word boundary `\b`, or the anchor `^`.  `matchToks` is
`re.match` at a position (with the preceding character carried for `\b`),
and `searchFrom` tries every starting position, as `re.search` does. -/

/-- A single-character class of a Python regex. -/
inductive Cls where
  /-- an explicit set of characters, e.g. `[\-_]` or a literal char -/
  | chars (cs : List Char)
  /-- a negated set, e.g. `[^,]` -/
  | notChars (cs : List Char)
  /-- the class `\s` -/
  | ws
  /-- the class `.` (anything but newline; `re.DOTALL` is not used) -/
  | dot
deriving DecidableEq

/-- Membership of a character in a class. -/
def clsMem (c : Cls) (ch : Char) : Bool :=
  match c with
  | .chars cs => cs.contains ch
  | .notChars cs => !cs.contains ch
  | .ws => pyIsSpace ch
  | .dot => ch ≠ '\n'

/-- One token of a regex. -/
inductive RTok where
  /-- match one character of the class -/
  | cls (c : Cls)
  /-- the token `c*`: zero or more characters of the class -/
  | star (c : Cls)
  /-- the token `c+`: one or more characters of the class -/
  | plus (c : Cls)
  /-- the word boundary `\b` -/
  | wb
  /-- the anchor `^` (no `re.MULTILINE`, so only the start of the string) -/
  | bol
deriving DecidableEq

/-- The Python `\b`: exactly one side of the current position is a word
character.  `prev` is the character before the position, if any. -/
def wordBoundaryB (prev : Option Char) (s : List Char) : Bool :=
  (match prev with | some c => isWordChar c | none => false) !=
  (match s with | c :: _ => isWordChar c | [] => false)

/-- All ways a starred class can consume a prefix of `s`: the resulting
(previous character, rest of input) pairs. -/
def starPositions (c : Cls) (prev : Option Char) (s : List Char) :
    List (Option Char × List Char) :=
  (prev, s) ::
    match s with
    | [] => []
    | ch :: rest => if clsMem c ch then starPositions c (some ch) rest else []

/-- Match a token list at the start of `s`, with `prev` the character
just before `s` (for `\b` and `^`).  Existential backtracking semantics,
equivalent to the Python matcher on these patterns. -/
def matchToks : List RTok → Option Char → List Char → Bool
  | [], _, _ => true
  | .cls c :: ts, _, s =>
    match s with
    | [] => false
    | ch :: rest => clsMem c ch && matchToks ts (some ch) rest
  | .star c :: ts, prev, s =>
    (starPositions c prev s).any (fun pr => matchToks ts pr.1 pr.2)
  | .plus c :: ts, _, s =>
    match s with
    | [] => false
    | ch :: rest =>
      clsMem c ch &&
        (starPositions c (some ch) rest).any (fun pr => matchToks ts pr.1 pr.2)
  | .wb :: ts, prev, s => wordBoundaryB prev s && matchToks ts prev s
  | .bol :: ts, prev, s => prev.isNone && matchToks ts prev s

/-- Try `matchToks` at every position of `s`, carrying the previous
character. -/
def searchFrom (ts : List RTok) (prev : Option Char) (s : List Char) : Bool :=
  matchToks ts prev s ||
    match s with
    | [] => false
    | ch :: rest => searchFrom ts (some ch) rest

/-- Python `re.search(pattern, s) is not None`. -/
def reSearch (ts : List RTok) (s : String) : Bool :=
  searchFrom ts none s.data

/-- A literal string as a token sequence. -/
def litToks (s : String) : List RTok :=
  s.data.map (fun c => .cls (.chars [c]))

/-- A literal string under `re.IGNORECASE` as a token sequence. -/
def ilitToks (s : String) : List RTok :=
  s.data.map (fun c => .cls (.chars [c.toUpper, c.toLower]))

/-! ### `fnmatch` and `os.path.basename` -/

/-- Python `fnmatch.fnmatch` on POSIX (where `normcase` is the identity):
`*` matches any run of characters (including `/`), `?` any single
character; the concrete patterns use no `[...]` classes. -/
def globMatch : List Char → List Char → Bool
  | [], s => s.isEmpty
  | p :: ps, s =>
    if p = '*' then s.tails.any (fun t => globMatch ps t)
    else if p = '?' then
      match s with
      | [] => false
      | _ :: rest => globMatch ps rest
    else
      match s with
      | [] => false
      | c :: rest => if p = c then globMatch ps rest else false

/-- Python `os.path.basename`: the part of the path after the last `/`. -/
def baseChars (l : List Char) : List Char :=
  (l.reverse.takeWhile (fun c => c ≠ '/')).reverse

/-- Python `os.path.basename` on strings. -/
def baseName (s : String) : String :=
  ⟨baseChars s.data⟩


/-! ### `check_for_panics.py` -/

/-- The list `EXCLUDED_PATTERNS` of `check_for_panics.py`. -/
def panicExcludedPatterns : List String :=
  ["*_test.go", "testutils/**", "**/mocks/**", "cmd/server/main.go"]

/-- The list `PANIC_PATTERNS`: the single regex `\bpanic\([^)]*\)`. -/
def panicCallPats : List (List RTok) :=
  [[.wb] ++ litToks "panic(" ++ [.star (.notChars [')']), .cls (.chars [')'])]]

/-- The list `EXEMPT_PATTERNS` of `check_for_panics.py`:
`//\s*ALLOW[\-_]PANIC`, `//\s*lint:allow panic`,
`/\*.*ALLOW[\-_]PANIC.*\*/`, `func init\(\)`, `^\s*if\s+testing\.`. -/
def panicExemptPats : List (List RTok) :=
  [ litToks "//" ++ [.star .ws] ++ litToks "ALLOW" ++
      [.cls (.chars ['-', '_'])] ++ litToks "PANIC",
    litToks "//" ++ [.star .ws] ++ litToks "lint:allow panic",
    litToks "/*" ++ [.star .dot] ++ litToks "ALLOW" ++
      [.cls (.chars ['-', '_'])] ++ litToks "PANIC" ++ [.star .dot] ++ litToks "*/",
    litToks "func init()",
    [.bol, .star .ws] ++ litToks "if" ++ [.plus .ws] ++ litToks "testing." ]

/-- The function `is_excluded` of `check_for_panics.py`: only the full path is tested
against each pattern. -/
def panic_is_excluded (filename : String) : Bool :=
  panicExcludedPatterns.any (fun pat => globMatch pat.data filename.data)

/-- The function `has_exemption(line, prev_line)` of `check_for_panics.py`; an empty
`prev_line` is falsy in Python and is not searched. -/
def panicHasExemption (line prev : String) : Bool :=
  panicExemptPats.any (fun p =>
    reSearch p line || (!(prev == "") && reSearch p prev))

/-- Python `lines[i-1] if i > 0 else ""`. -/
def linePrev (lines : List String) (i : Nat) : String :=
  if i = 0 then "" else lines.getD (i - 1) ""

/-- The findings the per-line loop of `check_for_panics.py` produces at
index `i` (1-based line numbers): one finding per panic pattern matching
the line, unless the line or its predecessor carries an exemption. -/
def panicHitAt (lines : List String) (i : Nat) : List Nat :=
  panicCallPats.flatMap (fun p =>
    if reSearch p (lines.getD i "") &&
        !panicHasExemption (lines.getD i "") (linePrev lines i)
    then [i + 1] else [])

/-- All findings (1-based line numbers) of `check_for_panics.py` on one
result of `readlines()` on one file. -/
def panicFileFindings (lines : List String) : List Nat :=
  (List.range lines.length).flatMap (fun i => panicHitAt lines i)

/-- A file as `check_for_panics.py` observes it: its path and the result
of `readlines()` (`none` when reading raises, which the script catches and
reports without touching the exit status). -/
structure GoFile where
  name : String
  lines : Option (List String)
deriving DecidableEq

/-- One iteration of the main loop of `check_for_panics.py` over the
state (findings so far, exit code). -/
def panic_step (st : List (String × Nat) × Nat) (f : GoFile) :
    List (String × Nat) × Nat :=
  if !strEndsWith f.name ".go" || panic_is_excluded f.name then st
  else
    match f.lines with
    | none => st
    | some ls =>
      let fds := panicFileFindings ls
      (st.1 ++ fds.map (fun n => (f.name, n)), if fds.isEmpty then st.2 else 1)

/-- The whole run of `check_for_panics.py`: the findings and the `sys.exit` code. -/
def panic_run (files : List GoFile) : List (String × Nat) × Nat :=
  files.foldl panic_step ([], 0)

/-! ### `check_sql_ordering.py` -/

/-- The list `EXCLUDED_PATTERNS` of `check_sql_ordering.py`. -/
def sqlExcludedPatterns : List String :=
  ["*_test.go", "testutils/**", "migrations/**",
   "internal/platform/postgres/migrations/**"]

/-- The list `EXEMPT_PATTERNS` of `check_sql_ordering.py`. -/
def sqlExemptPats : List (List RTok) :=
  [ litToks "//" ++ [.star .ws] ++ litToks "ALLOW" ++ [.cls (.chars ['-', '_'])] ++
      litToks "NONDETERMINISTIC" ++ [.cls (.chars ['-', '_'])] ++ litToks "ORDER",
    litToks "//" ++ [.star .ws] ++ litToks "lint:allow nondeterministic-order",
    litToks "/*" ++ [.star .dot] ++ litToks "ALLOW" ++ [.cls (.chars ['-', '_'])] ++
      litToks "NONDETERMINISTIC" ++ [.cls (.chars ['-', '_'])] ++ litToks "ORDER" ++
      [.star .dot] ++ litToks "*/" ]

/-- The function `is_excluded` of `check_sql_ordering.py` (full path only). -/
def sql_is_excluded (filename : String) : Bool :=
  sqlExcludedPatterns.any (fun pat => globMatch pat.data filename.data)

/-- The function `has_exemption(lines, index)`: an exemption regex matches some line
in `range(max(0, index-3), min(len(lines), index+4))`. -/
def sqlHasExemption (lines : List String) (i : Nat) : Bool :=
  (List.range' (i - 3) (min lines.length (i + 4) - (i - 3))).any (fun j =>
    sqlExemptPats.any (fun p => reSearch p (lines.getD j "")))

/-- The trigger condition of the main loop:
ORDER BY in line.upper() or (ORDER BY in content.upper() and
(backtick in line and "=" in line, or ":=" in line)). -/
def sqlTrigger (content line : String) : Bool :=
  containsSub "ORDER BY" (upperStr line) ||
    (containsSub "ORDER BY" (upperStr content) &&
      ((containsSub "`" line && containsSub "=" line) || containsSub ":=" line))

/-- The regex `ORDER\s+BY` with `re.IGNORECASE`. -/
def orderByPat : List RTok :=
  ilitToks "ORDER" ++ [.plus .ws] ++ ilitToks "BY"

/-- The regex `ORDER\s+BY\s+[^,]+(,)` with `re.IGNORECASE`. -/
def orderByCommaPat : List RTok :=
  ilitToks "ORDER" ++ [.plus .ws] ++ ilitToks "BY" ++
    [.plus .ws, .plus (.notChars [',']), .cls (.chars [','])]

/-- Python `'\n'.join(lines[max(0, i-5):min(len(lines), i+10)])`. -/
def ctxTextAt (lines : List String) (i : Nat) : String :=
  String.intercalate "\n"
    ((lines.drop (i - 5)).take (min lines.length (i + 10) - (i - 5)))

/-- The findings the main loop of `check_sql_ordering.py` produces at
line index `i` of one file.  (The trailing `i = context_end`
rebinds the loop variable, which has no effect in Python, so every index
is scanned.) -/
def sqlHitAt (content : String) (lines : List String) (i : Nat) : List Nat :=
  if sqlTrigger content (lines.getD i "") then
    if sqlHasExemption lines i then []
    else
      if reSearch orderByPat (ctxTextAt lines i) &&
          !reSearch orderByCommaPat (ctxTextAt lines i)
      then [i + 1] else []
  else []

/-- All findings (1-based line numbers) of `check_sql_ordering.py` on one
content of one file. -/
def sqlFileFindings (content : String) : List Nat :=
  (List.range (splitLinesStr content).length).flatMap
    (fun i => sqlHitAt content (splitLinesStr content) i)

/-- A file as `check_sql_ordering.py` observes it: its path and the
result of `f.read()` (`none` when reading raises). -/
structure SqlFile where
  name : String
  content : Option String
deriving DecidableEq

/-- One iteration of the main loop of `check_sql_ordering.py`. -/
def sql_step (st : List (String × Nat) × Nat) (f : SqlFile) :
    List (String × Nat) × Nat :=
  if !strEndsWith f.name ".go" || sql_is_excluded f.name then st
  else
    match f.content with
    | none => st
    | some c =>
      let fds := sqlFileFindings c
      (st.1 ++ fds.map (fun n => (f.name, n)), if fds.isEmpty then st.2 else 1)

/-- The whole run of `check_sql_ordering.py`: the findings and the `sys.exit` code. -/
def sql_run (files : List SqlFile) : List (String × Nat) × Nat :=
  files.foldl sql_step ([], 0)

/-! ### `fail_extremely_long_files.py` and `warn_long_files.py` -/

/-- The constant `FAIL_LINES_THRESHOLD` of `fail_extremely_long_files.py`. -/
def FAIL_LINES_THRESHOLD : Nat := 1000

/-- The constant `MAX_LINES` of `warn_long_files.py`. -/
def MAX_LINES : Nat := 500

/-- The list `EXCLUDED_PATTERNS` of `fail_extremely_long_files.py`. -/
def failExcludedPatterns : List String :=
  ["go.sum", "package-lock.json", "yarn.lock", "Cargo.lock", "poetry.lock",
   "pnpm-lock.yaml", "Pipfile.lock", "*.pb.go", "*.swagger.json",
   "*.generated.go", "vendor/**", "node_modules/**", ".swagger-codegen/**",
   "**/*.min.js", "**/*.min.css"]

/-- The function `is_excluded` of `fail_extremely_long_files.py`: both the full path
and its base name are tested against each pattern. -/
def fail_is_excluded (filename : String) : Bool :=
  failExcludedPatterns.any (fun pat =>
    globMatch pat.data filename.data || globMatch pat.data (baseName filename).data)

/-- The binary-file skip of both length scripts on the first 1024 bytes:
the sample holds a null byte, but neither two adjacent null bytes nor a
null byte followed by a newline byte (the pattern typical for UTF-16). -/
def binSkip (sample : List Nat) : Bool :=
  containsSeq [0] sample &&
    !(containsSeq [0, 0] sample || containsSeq [0, 10] sample)

/-- The BOM detection of both length scripts on the first 4 bytes:
`raw_data` starts with the bytes 255 254 or with 254 255. -/
def isUtf16 (head4 : List Nat) : Bool :=
  startsList [255, 254] head4 || startsList [254, 255] head4

/-- A file as the two length scripts observe it: its path, its raw bytes
(`none` when the binary-check `open`/`read` raises, which makes the script
skip the file), and the outcome of reading it as text under each encoding:
`none` means an unexpected exception (caught by the outer handler),
`some none` a `UnicodeDecodeError` (silently skipped), `some (some ls)`
the decoded lines. -/
structure DiskFile where
  name : String
  bytes : Option (List Nat)
  utf8 : Option (Option (List String))
  utf16 : Option (Option (List String))
deriving DecidableEq

/-- How one iteration of the loop of a length script classifies a file. -/
inductive LenOutcome where
  /-- skipped: unreadable sample or the binary heuristic fired -/
  | skipped
  /-- a `UnicodeDecodeError`: silently passed over -/
  | decodeSkip
  /-- unexpected exception: caught, an error is printed, nothing else -/
  | ioError
  /-- decoded: the non-empty line count -/
  | counted (n : Nat)
deriving DecidableEq

/-- The shared per-file pipeline of both length scripts: binary check on
the first 1024 bytes, BOM detection on the first 4 bytes, then the
non-empty line count of the text decoded under the detected encoding. -/
def lengthOutcome (f : DiskFile) : LenOutcome :=
  match f.bytes with
  | none => .skipped
  | some bs =>
    if binSkip (bs.take 1024) then .skipped
    else
      match (if isUtf16 (bs.take 4) then f.utf16 else f.utf8) with
      | none => .ioError
      | some none => .decodeSkip
      | some (some ls) => .counted (countNonEmpty ls)

/-- Whether the per-file pipeline ended in an error or skip rather than a
line count. -/
def lengthFileErr (f : DiskFile) : Bool :=
  match lengthOutcome f with
  | .counted _ => false
  | _ => true

/-- The finding `fail_extremely_long_files.py` emits for one file under
threshold `t` (`t` is `FAIL_LINES_THRESHOLD` in the script): the path and its line count when the count exceeds the threshold. -/
def failFinding (t : Nat) (f : DiskFile) : Option (String × Nat) :=
  if fail_is_excluded f.name then none
  else
    match lengthOutcome f with
    | .counted n => if n > t then some (f.name, n) else none
    | _ => none

/-- One iteration of the main loop of `fail_extremely_long_files.py`. -/
def fail_step (st : List (String × Nat) × Nat) (f : DiskFile) :
    List (String × Nat) × Nat :=
  match failFinding FAIL_LINES_THRESHOLD f with
  | some fd => (st.1 ++ [fd], 1)
  | none => st

/-- The whole run of `fail_extremely_long_files.py`: the findings and the `sys.exit`
code. -/
def fail_run (files : List DiskFile) : List (String × Nat) × Nat :=
  files.foldl fail_step ([], 0)

/-- The warning `warn_long_files.py` prints for one file: same per-file
pipeline, threshold `MAX_LINES`, and no exclusion check (the script has
no `EXCLUDED_PATTERNS`). -/
def warnWarning (f : DiskFile) : Option (String × Nat) :=
  match lengthOutcome f with
  | .counted n => if n > MAX_LINES then some (f.name, n) else none
  | _ => none

/-- The whole run of `warn_long_files.py`: the warnings printed and the process status,
which the script sets with an unconditional `sys.exit(0)`. -/
def warn_main (files : List DiskFile) : List (String × Nat) × Nat :=
  (files.foldl (fun ws f =>
    match warnWarning f with
    | some w => ws ++ [w]
    | none => ws) [], 0)


/-! ### Abstractions for the exit-status accumulator -/

/-- The invariant the blocking scanners maintain on their loop state: the
accumulator is 1 exactly when at least one finding has been recorded, and
never exceeds 1. -/
def EcInv (st : List (String × Nat) × Nat) : Prop :=
  (st.2 = 1 ↔ st.1 ≠ []) ∧ st.2 ≤ 1

/-- A loop step that either leaves the state unchanged or appends a
nonempty batch of findings and sets the accumulator to 1. -/
def StepShape {F : Type}
    (step : List (String × Nat) × Nat → F → List (String × Nat) × Nat) : Prop :=
  ∀ st f, step st f = st ∨ ∃ fds, fds ≠ [] ∧ step st f = (st.1 ++ fds, 1)

/-! ### Helper lemmas -/

lemma flatMap_range_eq_nil {h : Nat → List Nat} {n : Nat}
    (hz : ∀ i, i < n → h i = []) : (List.range n).flatMap h = [] := by
  induction n with
  | zero => simp
  | succ m ih =>
    rw [List.range_succ, List.flatMap_append]
    rw [ih (fun i hi => hz i (Nat.lt_succ_of_lt hi))]
    simp [hz m (Nat.lt_succ_self m)]

lemma flatMap_range_eq_single {h : Nat → List Nat} {n k : Nat}
    (hk : k < n) (hz : ∀ i, i < n → i ≠ k → h i = []) :
    (List.range n).flatMap h = h k := by
  induction n with
  | zero => omega
  | succ m ih =>
    rw [List.range_succ, List.flatMap_append]
    rcases Nat.lt_or_ge k m with hkm | hkm
    · rw [ih hkm (fun i hi hne => hz i (Nat.lt_succ_of_lt hi) hne)]
      have hm : h m = [] := hz m (Nat.lt_succ_self m) (by omega)
      simp [hm]
    · have hk' : k = m := by omega
      subst hk'
      rw [flatMap_range_eq_nil (fun i hi => hz i (Nat.lt_succ_of_lt hi) (by omega))]
      simp

lemma ecInv_foldl {F : Type} {step : List (String × Nat) × Nat → F → List (String × Nat) × Nat}
    (hs : StepShape step) :
    ∀ (files : List F) (st), EcInv st → EcInv (files.foldl step st) := by
  intro files
  induction files with
  | nil => intro st h; exact h
  | cons f fs ih =>
    intro st h
    apply ih
    rcases hs st f with heq | ⟨fds, hne, heq⟩
    · rw [heq]; exact h
    · rw [heq]
      exact ⟨by simp [hne], by simp⟩

lemma ec_characterisation {F : Type}
    {step : List (String × Nat) × Nat → F → List (String × Nat) × Nat}
    (hs : StepShape step) (files : List F) :
    (files.foldl step ([], 0)).2 =
      if (files.foldl step ([], 0)).1.isEmpty then 0 else 1 := by
  rcases ecInv_foldl hs files ([], 0) ⟨by simp, by simp⟩ with ⟨hiff, hle⟩
  by_cases he : (files.foldl step ([], 0)).1 = []
  · have h1 : (files.foldl step ([], 0)).2 ≠ 1 := fun h => (hiff.mp h) he
    simp [he]; omega
  · simp [he, hiff.mpr he]

lemma ec_mono {F : Type}
    {step : List (String × Nat) × Nat → F → List (String × Nat) × Nat}
    (hs : StepShape step) (files : List F) (g : F) :
    (files.foldl step ([], 0)).2 ≤ ((files ++ [g]).foldl step ([], 0)).2 := by
  rw [List.foldl_append]
  rcases ecInv_foldl hs files ([], 0) ⟨by simp, by simp⟩ with ⟨hiff, hle⟩
  rcases hs (files.foldl step ([], 0)) g with heq | ⟨fds, hne, heq⟩
  · simp [heq]
  · rw [List.foldl_cons, List.foldl_nil, heq]; exact hle

lemma foldl_skip {S F : Type} {step : S → F → S} {f : F} (hf : ∀ st, step st f = st)
    (pre post : List F) (init : S) :
    (pre ++ f :: post).foldl step init = (pre ++ post).foldl step init := by
  rw [List.foldl_append, List.foldl_append, List.foldl_cons, hf]

lemma fail_stepShape : StepShape fail_step := by
  intro st f
  unfold fail_step
  match h : failFinding FAIL_LINES_THRESHOLD f with
  | none => exact Or.inl rfl
  | some fd => exact Or.inr ⟨[fd], by simp, rfl⟩

lemma panic_stepShape : StepShape panic_step := by
  intro st f
  unfold panic_step
  by_cases h1 : (!strEndsWith f.name ".go" || panic_is_excluded f.name) = true
  · rw [if_pos h1]; exact Or.inl rfl
  · rw [if_neg h1]
    match hf : f.lines with
    | none => exact Or.inl rfl
    | some ls =>
      by_cases h2 : (panicFileFindings ls).isEmpty
      · left
        have : panicFileFindings ls = [] := List.isEmpty_iff.mp h2
        simp [this, h2]
      · right
        refine ⟨(panicFileFindings ls).map (fun n => (f.name, n)), ?_, by simp [h2]⟩
        have : panicFileFindings ls ≠ [] := fun h => h2 (by simp [h])
        simp [this]

lemma sql_stepShape : StepShape sql_step := by
  intro st f
  unfold sql_step
  by_cases h1 : (!strEndsWith f.name ".go" || sql_is_excluded f.name) = true
  · rw [if_pos h1]; exact Or.inl rfl
  · rw [if_neg h1]
    match hf : f.content with
    | none => exact Or.inl rfl
    | some c =>
      by_cases h2 : (sqlFileFindings c).isEmpty
      · left
        have : sqlFileFindings c = [] := List.isEmpty_iff.mp h2
        simp [this, h2]
      · right
        refine ⟨(sqlFileFindings c).map (fun n => (f.name, n)), ?_, by simp [h2]⟩
        have : sqlFileFindings c ≠ [] := fun h => h2 (by simp [h])
        simp [this]

lemma countNonEmpty_replicate_x (n : Nat) :
    countNonEmpty (List.replicate n "x") = n := by
  rw [countNonEmpty, List.countP_replicate]
  simp [show hasNonWS "x" = true from by decide]

/-! ### Claim theorems -/

/-- C1: for the hard length-limit scanner, a non-excluded, non-binary
text file whose decoded text has exactly 1000 non-empty lines produces no
finding and leaves the exit status at 0, while one with 1001 such lines
produces a finding and final exit status 1. -/
theorem c1_hard_threshold
    (f g : DiskFile) (bf bg : List Nat) (lf lg : List String)
    (hf1 : fail_is_excluded f.name = false) (hf2 : f.bytes = some bf)
    (hf3 : binSkip (bf.take 1024) = false)
    (hf4 : (if isUtf16 (bf.take 4) then f.utf16 else f.utf8) = some (some lf))
    (hf5 : countNonEmpty lf = 1000)
    (hg1 : fail_is_excluded g.name = false) (hg2 : g.bytes = some bg)
    (hg3 : binSkip (bg.take 1024) = false)
    (hg4 : (if isUtf16 (bg.take 4) then g.utf16 else g.utf8) = some (some lg))
    (hg5 : countNonEmpty lg = 1001) :
    fail_run [f] = ([], 0) ∧ fail_run [g] = ([(g.name, 1001)], 1) := by
  have hof : lengthOutcome f = .counted 1000 := by
    unfold lengthOutcome
    rw [hf2]
    simp only [hf3, Bool.false_eq_true, if_false, hf4, hf5]
  have hog : lengthOutcome g = .counted 1001 := by
    unfold lengthOutcome
    rw [hg2]
    simp only [hg3, Bool.false_eq_true, if_false, hg4, hg5]
  constructor
  · show fail_step ([], 0) f = ([], 0)
    unfold fail_step failFinding
    rw [hf1, hof]
    simp [FAIL_LINES_THRESHOLD]
  · show fail_step ([], 0) g = ([(g.name, 1001)], 1)
    unfold fail_step failFinding
    rw [hg1, hog]
    simp [FAIL_LINES_THRESHOLD]

theorem c1_hard_threshold_witness :
    fail_run [⟨"a.go", some [120], some (some (List.replicate 1000 "x")),
      some (some [])⟩] = ([], 0) ∧
    fail_run [⟨"b.go", some [120], some (some (List.replicate 1001 "x")),
      some (some [])⟩] = ([("b.go", 1001)], 1) :=
  c1_hard_threshold _ _ [120] [120] (List.replicate 1000 "x") (List.replicate 1001 "x")
    (by decide) rfl (by decide) rfl (countNonEmpty_replicate_x 1000)
    (by decide) rfl (by decide) rfl (countNonEmpty_replicate_x 1001)

/-- C2: the soft length-limit scanner exits with status 0 for every input
file list, regardless of contents, warnings or per-file errors. -/
theorem c2_soft_always_succeeds : ∀ files : List DiskFile, (warn_main files).2 = 0 :=
  fun _ => rfl

/-- C3 counterexample: the claim that the per-file logic of the soft scanner is
identical to that of the hard scanner *including file exclusion* fails: the soft
scanner has no exclusion list, so on a 501-line `go.sum` it warns while
the hard scanner with threshold 500 would emit nothing. -/
theorem c3_counterexample :
    (warnWarning ⟨"go.sum", some [120], some (some (List.replicate 501 "x")),
      some (some [])⟩).isSome = true ∧
    (failFinding 500 ⟨"go.sum", some [120], some (some (List.replicate 501 "x")),
      some (some [])⟩).isSome = false := by
  have hlen : lengthOutcome ⟨"go.sum", some [120],
      some (some (List.replicate 501 "x")), some (some [])⟩ = .counted 501 := by
    have h0 : lengthOutcome ⟨"go.sum", some [120],
        some (some (List.replicate 501 "x")), some (some [])⟩ =
        .counted (countNonEmpty (List.replicate 501 "x")) := rfl
    rw [h0, countNonEmpty_replicate_x]
  constructor
  · unfold warnWarning
    rw [hlen]
    simp [MAX_LINES]
  · unfold failFinding
    simp [show fail_is_excluded "go.sum" = true from by decide]

/-- C3 amended: the per-file pipeline of the soft scanner (binary
detection, encoding detection, non-empty-line counting) is that of the
hard scanner with
threshold 500, except that the soft scanner performs no file exclusion:
for every file the hard scanner would not exclude, the soft scanner warns
exactly when the hard scanner with threshold 500 would emit a finding. -/
theorem c3_soft_matches_hard500 (f : DiskFile)
    (h : fail_is_excluded f.name = false) :
    warnWarning f = failFinding 500 f := by
  unfold warnWarning failFinding
  rw [h]
  simp only [Bool.false_eq_true, if_false]
  cases lengthOutcome f <;> simp [MAX_LINES]

theorem c3_soft_matches_hard500_witness :
    fail_is_excluded "main.go" = false ∧
    warnWarning ⟨"main.go", some [120], some (some (List.replicate 501 "x")),
        some (some [])⟩ =
      failFinding 500 ⟨"main.go", some [120], some (some (List.replicate 501 "x")),
        some (some [])⟩ :=
  ⟨by decide, c3_soft_matches_hard500 _ (by decide)⟩

/-- C6: the deterministic-ordering scanner flags an included file whose
query reads `ORDER BY created_at DESC` (no comma in the window, no
exemption) with a finding and exit code 1, while the same query written
`ORDER BY created_at DESC, id ASC` yields no finding. -/
theorem c6_order_scenarios :
    sql_run [⟨"store.go",
        some "q := \"SELECT id FROM cards ORDER BY created_at DESC\"\n"⟩] =
      ([("store.go", 1)], 1) ∧
    sql_run [⟨"store.go",
        some "q := \"SELECT id FROM cards ORDER BY created_at DESC, id ASC\"\n"⟩] =
      ([], 0) :=
  ⟨by decide, by decide⟩

/-- C9: in every scanner the exit-status accumulator starts at success,
equals 1 exactly when a blocking finding was emitted (so it is set only
when a finding occurs and never reset), appending further files never
lowers it, and the warn-only scanner always reports 0. -/
theorem c9_accumulator :
    (fail_run [] = ([], 0) ∧ panic_run [] = ([], 0) ∧ sql_run [] = ([], 0)) ∧
    (∀ files : List DiskFile,
      (fail_run files).2 = if (fail_run files).1.isEmpty then 0 else 1) ∧
    (∀ files : List GoFile,
      (panic_run files).2 = if (panic_run files).1.isEmpty then 0 else 1) ∧
    (∀ files : List SqlFile,
      (sql_run files).2 = if (sql_run files).1.isEmpty then 0 else 1) ∧
    (∀ (files : List DiskFile) (g : DiskFile),
      (fail_run files).2 ≤ (fail_run (files ++ [g])).2) ∧
    (∀ (files : List GoFile) (g : GoFile),
      (panic_run files).2 ≤ (panic_run (files ++ [g])).2) ∧
    (∀ (files : List SqlFile) (g : SqlFile),
      (sql_run files).2 ≤ (sql_run (files ++ [g])).2) ∧
    (∀ files : List DiskFile, (warn_main files).2 = 0) :=
  ⟨⟨rfl, rfl, rfl⟩,
    fun files => ec_characterisation fail_stepShape files,
    fun files => ec_characterisation panic_stepShape files,
    fun files => ec_characterisation sql_stepShape files,
    fun files g => ec_mono fail_stepShape files g,
    fun files g => ec_mono panic_stepShape files g,
    fun files g => ec_mono sql_stepShape files g,
    fun _ => rfl⟩

lemma fail_step_id_of_err {f : DiskFile} (h : lengthFileErr f = true) :
    ∀ st, fail_step st f = st := by
  intro st
  unfold fail_step failFinding
  unfold lengthFileErr at h
  by_cases he : fail_is_excluded f.name = true
  · simp [he]
  · simp only [Bool.not_eq_true] at he
    rw [he]
    match ho : lengthOutcome f with
    | .skipped => simp
    | .decodeSkip => simp
    | .ioError => simp
    | .counted n => rw [ho] at h; simp at h

lemma warn_step_id_of_err {f : DiskFile} (h : lengthFileErr f = true) :
    ∀ ws : List (String × Nat),
      (match warnWarning f with
       | some w => ws ++ [w]
       | none => ws) = ws := by
  intro ws
  unfold warnWarning
  unfold lengthFileErr at h
  match ho : lengthOutcome f with
  | .skipped => simp
  | .decodeSkip => simp
  | .ioError => simp
  | .counted n => rw [ho] at h; simp at h

lemma panic_step_id_of_err {f : GoFile} (h : f.lines = none) :
    ∀ st, panic_step st f = st := by
  intro st
  unfold panic_step
  by_cases h1 : (!strEndsWith f.name ".go" || panic_is_excluded f.name) = true
  · rw [if_pos h1]
  · rw [if_neg h1, h]

lemma sql_step_id_of_err {f : SqlFile} (h : f.content = none) :
    ∀ st, sql_step st f = st := by
  intro st
  unfold sql_step
  by_cases h1 : (!strEndsWith f.name ".go" || sql_is_excluded f.name) = true
  · rw [if_pos h1]
  · rw [if_neg h1, h]

lemma ec_one_imp_finding {F : Type}
    {step : List (String × Nat) × Nat → F → List (String × Nat) × Nat}
    (hs : StepShape step) (files : List F)
    (h : (files.foldl step ([], 0)).2 = 1) : (files.foldl step ([], 0)).1 ≠ [] :=
  ((ecInv_foldl hs files ([], 0) ⟨by simp, by simp⟩).1).mp h

/-- C10: in all four scanners, per-file read failures, binary-detection
skips, decode failures and caught exceptions leave the findings and
exit status exactly as if the file were absent (so they never change the
accumulator and processing continues with the remaining files), and a
final exit status of 1 can arise only from a policy-violation finding. -/
theorem c10_error_paths :
    (∀ (pre post : List DiskFile) (f : DiskFile), lengthFileErr f = true →
      fail_run (pre ++ f :: post) = fail_run (pre ++ post)) ∧
    (∀ (pre post : List DiskFile) (f : DiskFile), lengthFileErr f = true →
      warn_main (pre ++ f :: post) = warn_main (pre ++ post)) ∧
    (∀ (pre post : List GoFile) (f : GoFile), f.lines = none →
      panic_run (pre ++ f :: post) = panic_run (pre ++ post)) ∧
    (∀ (pre post : List SqlFile) (f : SqlFile), f.content = none →
      sql_run (pre ++ f :: post) = sql_run (pre ++ post)) ∧
    (∀ files : List DiskFile, (fail_run files).2 = 1 → (fail_run files).1 ≠ []) ∧
    (∀ files : List GoFile, (panic_run files).2 = 1 → (panic_run files).1 ≠ []) ∧
    (∀ files : List SqlFile, (sql_run files).2 = 1 → (sql_run files).1 ≠ []) := by
  refine ⟨?_, ?_, ?_, ?_, ?_, ?_, ?_⟩
  · intro pre post f h
    exact foldl_skip (fail_step_id_of_err h) pre post ([], 0)
  · intro pre post f h
    unfold warn_main
    rw [foldl_skip (warn_step_id_of_err h) pre post []]
  · intro pre post f h
    exact foldl_skip (panic_step_id_of_err h) pre post ([], 0)
  · intro pre post f h
    exact foldl_skip (sql_step_id_of_err h) pre post ([], 0)
  · exact fun files => ec_one_imp_finding fail_stepShape files
  · exact fun files => ec_one_imp_finding panic_stepShape files
  · exact fun files => ec_one_imp_finding sql_stepShape files

theorem c10_error_paths_witness :
    (lengthFileErr ⟨"err.go", none, none, none⟩ = true ∧
      fail_run [⟨"err.go", none, none, none⟩] = fail_run [] ∧
      warn_main [⟨"err.go", none, none, none⟩] = warn_main []) ∧
    (panic_run [(⟨"err.go", none⟩ : GoFile)] = panic_run []) ∧
    (sql_run [(⟨"err.go", none⟩ : SqlFile)] = sql_run []) ∧
    ((fail_run [⟨"big.go", some [120], some (some ["x", "y"]), some (some [])⟩]).2 = 1 →
      (fail_run [⟨"big.go", some [120], some (some ["x", "y"]), some (some [])⟩]).1 ≠ []) := by
  refine ⟨⟨by decide, ?_, ?_⟩, ?_, ?_, ?_⟩
  · exact c10_error_paths.1 [] [] _ (by decide)
  · exact c10_error_paths.2.1 [] [] _ (by decide)
  · exact c10_error_paths.2.2.1 [] [] _ rfl
  · exact c10_error_paths.2.2.2.1 [] [] _ rfl
  · exact c10_error_paths.2.2.2.2.1 _

lemma globMatch_cons (p : Char) (ps s : List Char) :
    globMatch (p :: ps) s =
      if p = '*' then s.tails.any (fun t => globMatch ps t)
      else if p = '?' then
        (match s with
         | [] => false
         | _ :: rest => globMatch ps rest)
      else
        (match s with
         | [] => false
         | c :: rest => if p = c then globMatch ps rest else false) := rfl

lemma globMatch_mem_of_lit {pat s : List Char} {c : Char}
    (h : globMatch pat s = true) (hc : c ∈ pat) (h1 : c ≠ '*') (h2 : c ≠ '?') :
    c ∈ s := by
  induction pat generalizing s with
  | nil => simp at hc
  | cons p ps ih =>
    rw [globMatch_cons] at h
    by_cases hp : p = '*'
    · rw [if_pos hp] at h
      rw [List.any_eq_true] at h
      obtain ⟨t, ht, hmt⟩ := h
      have hcs : c ∈ ps := by
        rcases List.mem_cons.mp hc with hcp | hcs
        · exact absurd (hcp.trans hp) h1
        · exact hcs
      exact ((List.mem_tails _ _).mp ht).subset (ih hmt hcs)
    · rw [if_neg hp] at h
      by_cases hq : p = '?'
      · rw [if_pos hq] at h
        cases s with
        | nil => simp at h
        | cons a rest =>
          have hcs : c ∈ ps := by
            rcases List.mem_cons.mp hc with hcp | hcs
            · exact absurd (hcp.trans hq) h2
            · exact hcs
          exact List.mem_cons_of_mem a (ih h hcs)
      · rw [if_neg hq] at h
        cases s with
        | nil => simp at h
        | cons a rest =>
          have h' : (if p = a then globMatch ps rest else false) = true := h
          by_cases hpa : p = a
          · rw [if_pos hpa] at h'
            rcases List.mem_cons.mp hc with hcp | hcs
            · rw [hcp, hpa]; exact List.mem_cons_self a rest
            · exact List.mem_cons_of_mem a (ih h' hcs)
          · rw [if_neg hpa] at h'
            simp at h'

lemma globMatch_star_suffix {ps s t : List Char} (hs : t <:+ s)
    (h : globMatch ('*' :: ps) t = true) : globMatch ('*' :: ps) s = true := by
  rw [globMatch_cons] at h ⊢
  rw [if_pos rfl] at h ⊢
  rw [List.any_eq_true] at h ⊢
  obtain ⟨u, hu, hmu⟩ := h
  exact ⟨u, (List.mem_tails _ _).mpr (((List.mem_tails _ _).mp hu).trans hs), hmu⟩

lemma baseChars_suffix (l : List Char) : baseChars l <:+ l := by
  unfold baseChars
  have h : (l.reverse.takeWhile (fun c => c ≠ '/')) <+: l.reverse :=
    List.takeWhile_prefix _
  have h2 := (@List.reverse_prefix Char
    ((l.reverse.takeWhile (fun c => c ≠ '/')).reverse) l).mp
  rw [List.reverse_reverse] at h2
  exact h2 h

lemma baseChars_no_slash (l : List Char) : '/' ∉ baseChars l := by
  unfold baseChars
  intro h
  rw [List.mem_reverse] at h
  have := List.mem_takeWhile_imp h
  simp at this

lemma basename_match_imp_full {pat : List Char} {s : List Char}
    (hpat : (∃ ps, pat = '*' :: ps) ∨ '/' ∈ pat)
    (h : globMatch pat (baseChars s) = true) : globMatch pat s = true := by
  rcases hpat with ⟨ps, hps⟩ | hsl
  · rw [hps] at h ⊢
    exact globMatch_star_suffix (baseChars_suffix s) h
  · exact absurd (globMatch_mem_of_lit h hsl (by decide) (by decide))
      (baseChars_no_slash s)

lemma excluded_full_iff (pats : List String)
    (hp : ∀ pat ∈ pats, (∃ ps, pat.data = '*' :: ps) ∨ '/' ∈ pat.data)
    (p : String) :
    pats.any (fun pat => globMatch pat.data p.data) =
      pats.any (fun pat =>
        globMatch pat.data p.data || globMatch pat.data (baseName p).data) := by
  cases h : pats.any (fun pat => globMatch pat.data p.data) with
  | true =>
    rw [List.any_eq_true] at h
    obtain ⟨pat, hm, hg⟩ := h
    symm
    rw [List.any_eq_true]
    exact ⟨pat, hm, by simp [hg]⟩
  | false =>
    symm
    rw [List.any_eq_false] at h
    rw [List.any_eq_false]
    intro pat hm habs
    rw [Bool.or_eq_true] at habs
    rcases habs with hb | hb
    · exact h pat hm hb
    · exact h pat hm (basename_match_imp_full (hp pat hm) hb)

lemma panic_step_id_of_excluded {f : GoFile} (h : panic_is_excluded f.name = true) :
    ∀ st, panic_step st f = st := by
  intro st
  unfold panic_step
  rw [h]
  simp

lemma sql_step_id_of_excluded {f : SqlFile} (h : sql_is_excluded f.name = true) :
    ∀ st, sql_step st f = st := by
  intro st
  unfold sql_step
  rw [h]
  simp

lemma fail_step_id_of_excluded {f : DiskFile} (h : fail_is_excluded f.name = true) :
    ∀ st, fail_step st f = st := by
  intro st
  unfold fail_step failFinding
  rw [h]
  simp

/-- C4: in each scanner that has an exclusion pattern set, a path is
excluded exactly when some pattern matches the full path or its base name
(for the panic and ordering scanners the code tests only the full path,
but with their concrete pattern lists a base-name match always entails a
full-path match), and an excluded file contributes nothing to the run:
findings and exit status are as if the file were absent. -/
theorem c4_exclusion :
    (∀ p : String, panic_is_excluded p =
      panicExcludedPatterns.any (fun pat =>
        globMatch pat.data p.data || globMatch pat.data (baseName p).data)) ∧
    (∀ p : String, sql_is_excluded p =
      sqlExcludedPatterns.any (fun pat =>
        globMatch pat.data p.data || globMatch pat.data (baseName p).data)) ∧
    (∀ p : String, fail_is_excluded p =
      failExcludedPatterns.any (fun pat =>
        globMatch pat.data p.data || globMatch pat.data (baseName p).data)) ∧
    (∀ (pre post : List GoFile) (f : GoFile), panic_is_excluded f.name = true →
      panic_run (pre ++ f :: post) = panic_run (pre ++ post)) ∧
    (∀ (pre post : List SqlFile) (f : SqlFile), sql_is_excluded f.name = true →
      sql_run (pre ++ f :: post) = sql_run (pre ++ post)) ∧
    (∀ (pre post : List DiskFile) (f : DiskFile), fail_is_excluded f.name = true →
      fail_run (pre ++ f :: post) = fail_run (pre ++ post)) := by
  refine ⟨?_, ?_, fun p => rfl, ?_, ?_, ?_⟩
  · intro p
    unfold panic_is_excluded
    apply excluded_full_iff
    intro pat hm
    simp only [panicExcludedPatterns, List.mem_cons, List.not_mem_nil, or_false] at hm
    rcases hm with h | h | h | h <;> subst h
    · exact Or.inl ⟨"_test.go".data, rfl⟩
    · exact Or.inr (by decide)
    · exact Or.inl ⟨"*/mocks/**".data, rfl⟩
    · exact Or.inr (by decide)
  · intro p
    unfold sql_is_excluded
    apply excluded_full_iff
    intro pat hm
    simp only [sqlExcludedPatterns, List.mem_cons, List.not_mem_nil, or_false] at hm
    rcases hm with h | h | h | h <;> subst h
    · exact Or.inl ⟨"_test.go".data, rfl⟩
    · exact Or.inr (by decide)
    · exact Or.inr (by decide)
    · exact Or.inr (by decide)
  · intro pre post f h
    exact foldl_skip (panic_step_id_of_excluded h) pre post ([], 0)
  · intro pre post f h
    exact foldl_skip (sql_step_id_of_excluded h) pre post ([], 0)
  · intro pre post f h
    exact foldl_skip (fail_step_id_of_excluded h) pre post ([], 0)

theorem c4_exclusion_witness :
    panic_is_excluded "pkg/foo_test.go" =
      panicExcludedPatterns.any (fun pat =>
        globMatch pat.data "pkg/foo_test.go".data ||
          globMatch pat.data (baseName "pkg/foo_test.go").data) ∧
    (panic_is_excluded "x_test.go" = true ∧
      panic_run [⟨"x_test.go", some ["panic(1)\n"]⟩] = panic_run []) ∧
    (sql_is_excluded "migrations/m.go" = true ∧
      sql_run [⟨"migrations/m.go", some "x := 1 // ORDER BY a\n"⟩] = sql_run []) ∧
    (fail_is_excluded "go.sum" = true ∧
      fail_run [⟨"go.sum", some [120], some (some ["x"]), some (some [])⟩] =
        fail_run []) :=
  ⟨c4_exclusion.1 "pkg/foo_test.go",
    ⟨by decide, c4_exclusion.2.2.2.1 [] [] _ (by decide)⟩,
    ⟨by decide, c4_exclusion.2.2.2.2.1 [] [] _ (by decide)⟩,
    ⟨by decide, c4_exclusion.2.2.2.2.2 [] [] _ (by decide)⟩⟩

lemma panicExempt_empty_false : ∀ p ∈ panicExemptPats, reSearch p "" = false := by
  decide

lemma panicHitAt_mem {lines : List String} {i m : Nat}
    (h : m ∈ panicHitAt lines i) :
    m = i + 1 ∧
      (∃ p ∈ panicCallPats, reSearch p (lines.getD i "") = true) ∧
      panicHasExemption (lines.getD i "") (linePrev lines i) = false := by
  unfold panicHitAt at h
  rw [List.mem_flatMap] at h
  obtain ⟨q, hq, hm⟩ := h
  by_cases hc : (reSearch q (lines.getD i "") &&
      !panicHasExemption (lines.getD i "") (linePrev lines i)) = true
  · rw [if_pos hc] at hm
    rw [Bool.and_eq_true, Bool.not_eq_true'] at hc
    exact ⟨by simpa using hm, ⟨q, hq, hc.1⟩, hc.2⟩
  · rw [if_neg hc] at hm
    simp at hm

lemma sqlHitAt_mem {content : String} {lines : List String} {i m : Nat}
    (h : m ∈ sqlHitAt content lines i) :
    m = i + 1 ∧ sqlTrigger content (lines.getD i "") = true ∧
      sqlHasExemption lines i = false := by
  unfold sqlHitAt at h
  by_cases h1 : sqlTrigger content (lines.getD i "") = true
  · rw [if_pos h1] at h
    by_cases h2 : sqlHasExemption lines i = true
    · rw [if_pos h2] at h
      simp at h
    · rw [if_neg h2] at h
      rw [Bool.not_eq_true] at h2
      by_cases h3 : (reSearch orderByPat (ctxTextAt lines i) &&
          !reSearch orderByCommaPat (ctxTextAt lines i)) = true
      · rw [if_pos h3] at h
        exact ⟨by simpa using h, h1, h2⟩
      · rw [if_neg h3] at h
        simp at h
  · rw [if_neg h1] at h
    simp at h

/-- C7: a would-be finding is suppressed whenever an exemption pattern
matches within the policy-specific window: for the forbidden-construct
scanner, the matching line or the immediately preceding line; for the
deterministic-ordering scanner, any line from 3 lines before to 3 lines
after the triggering line. -/
theorem c7_exemption_suppression :
    (∀ (lines : List String) (i : Nat),
      (∃ p ∈ panicExemptPats,
        reSearch p (lines.getD i "") = true ∨
          reSearch p (linePrev lines i) = true) →
      (i + 1) ∉ panicFileFindings lines) ∧
    (∀ (c : String) (i j : Nat) (p : List RTok), p ∈ sqlExemptPats →
      i - 3 ≤ j → j < min (splitLinesStr c).length (i + 4) →
      reSearch p ((splitLinesStr c).getD j "") = true →
      (i + 1) ∉ sqlFileFindings c) := by
  constructor
  · rintro lines i ⟨p, hp, hor⟩ hmem
    have hex : panicHasExemption (lines.getD i "") (linePrev lines i) = true := by
      unfold panicHasExemption
      rw [List.any_eq_true]
      refine ⟨p, hp, ?_⟩
      rcases hor with h | h
      · rw [h, Bool.true_or]
      · by_cases he : linePrev lines i = ""
        · rw [he] at h
          rw [panicExempt_empty_false p hp] at h
          simp at h
        · have hne : (linePrev lines i == "") = false := by
            simpa using he
          rw [hne, h]
          simp
    unfold panicFileFindings at hmem
    rw [List.mem_flatMap] at hmem
    obtain ⟨k, hk, hmem'⟩ := hmem
    obtain ⟨heq, _, hnex⟩ := panicHitAt_mem hmem'
    have : k = i := by omega
    subst this
    rw [hex] at hnex
    exact absurd hnex (by simp)
  · intro c i j p hp hj1 hj2 hsearch hmem
    have hex : sqlHasExemption (splitLinesStr c) i = true := by
      unfold sqlHasExemption
      rw [List.any_eq_true]
      refine ⟨j, ?_, ?_⟩
      · rw [List.mem_range'_1]
        refine ⟨hj1, ?_⟩
        omega
      · rw [List.any_eq_true]
        exact ⟨p, hp, hsearch⟩
    unfold sqlFileFindings at hmem
    rw [List.mem_flatMap] at hmem
    obtain ⟨k, hk, hmem'⟩ := hmem
    obtain ⟨heq, _, hnex⟩ := sqlHitAt_mem hmem'
    have : k = i := by omega
    subst this
    rw [hex] at hnex
    exact absurd hnex (by simp)

theorem c7_exemption_suppression_witness :
    ((2 : Nat) ∉ panicFileFindings ["\t// ALLOW-PANIC\n", "\tpanic(\"boom\")\n"]) ∧
    ((2 : Nat) ∉ sqlFileFindings
      "// ALLOW-NONDETERMINISTIC-ORDER\nq := \"SELECT 1 ORDER BY a DESC\"\n") :=
  ⟨c7_exemption_suppression.1 _ 1
      ⟨panicExemptPats.getD 0 [], by decide, Or.inr (by decide)⟩,
    c7_exemption_suppression.2 _ 1 0 (sqlExemptPats.getD 0 [])
      (by decide) (by decide) (by decide) (by decide)⟩

/-- C8 counterexample: the trigger of the ordering scanner is not restricted
to lines containing `ORDER BY`: on the file content
`x := 1\ns = "ORDER BY created_at DESC"\n` it reports a finding at line 1,
whose text does not contain the case-insensitive keyword (the `:=` branch
of the trigger fires because the keyword appears elsewhere in the file). -/
theorem c8_counterexample :
    (1 : Nat) ∈ sqlFileFindings "x := 1\ns = \"ORDER BY created_at DESC\"\n" ∧
    containsSub "ORDER BY"
      (upperStr ((splitLinesStr
        "x := 1\ns = \"ORDER BY created_at DESC\"\n").getD 0 "")) = false :=
  ⟨by decide, by decide⟩

/-- C8 amended: every finding of the deterministic-ordering scanner is
reported at a line satisfying the trigger of the scanner: the line contains the
case-insensitive text `ORDER BY`, or the whole file contains it and the
line contains `:=`, or a backtick together with `=`.  (The contextual
window of 5 lines before and 10 lines after is built for each such
triggering line, not only for lines containing the keyword.) -/
theorem c8_trigger_lines (c : String) (m : Nat) (hm : m ∈ sqlFileFindings c) :
    ∃ i, m = i + 1 ∧ i < (splitLinesStr c).length ∧
      (containsSub "ORDER BY" (upperStr ((splitLinesStr c).getD i "")) = true ∨
        (containsSub "ORDER BY" (upperStr c) = true ∧
          ((containsSub "`" ((splitLinesStr c).getD i "") = true ∧
            containsSub "=" ((splitLinesStr c).getD i "") = true) ∨
            containsSub ":=" ((splitLinesStr c).getD i "") = true))) := by
  unfold sqlFileFindings at hm
  rw [List.mem_flatMap] at hm
  obtain ⟨i, hi, hmem⟩ := hm
  obtain ⟨heq, htrig, _⟩ := sqlHitAt_mem hmem
  refine ⟨i, heq, List.mem_range.mp hi, ?_⟩
  unfold sqlTrigger at htrig
  rw [Bool.or_eq_true, Bool.and_eq_true, Bool.or_eq_true, Bool.and_eq_true] at htrig
  exact htrig

theorem c8_trigger_lines_witness :
    ∃ i, (1 : Nat) = i + 1 ∧
      i < (splitLinesStr "x := 1\ns = \"ORDER BY created_at DESC\"\n").length ∧
      (containsSub "ORDER BY" (upperStr ((splitLinesStr
          "x := 1\ns = \"ORDER BY created_at DESC\"\n").getD i "")) = true ∨
        (containsSub "ORDER BY"
            (upperStr "x := 1\ns = \"ORDER BY created_at DESC\"\n") = true ∧
          ((containsSub "`" ((splitLinesStr
              "x := 1\ns = \"ORDER BY created_at DESC\"\n").getD i "") = true ∧
            containsSub "=" ((splitLinesStr
              "x := 1\ns = \"ORDER BY created_at DESC\"\n").getD i "") = true) ∨
            containsSub ":=" ((splitLinesStr
              "x := 1\ns = \"ORDER BY created_at DESC\"\n").getD i "") = true))) :=
  c8_trigger_lines _ 1 (by decide)

lemma getD_mem_of_lt {l : List String} {i : Nat} (h : i < l.length) :
    l.getD i "" ∈ l := by
  rw [List.getD_eq_getElem l "" h]
  exact List.getElem_mem h

lemma panicHitAt_nil_of_nosearch {lines : List String} {i : Nat}
    (h : ∀ p ∈ panicCallPats, reSearch p (lines.getD i "") = false) :
    panicHitAt lines i = [] := by
  unfold panicHitAt
  rw [List.flatMap_eq_nil_iff]
  intro p hp
  rw [h p hp]
  simp

lemma panicHitAt_nil_of_exempt {lines : List String} {i : Nat}
    (h : panicHasExemption (lines.getD i "") (linePrev lines i) = true) :
    panicHitAt lines i = [] := by
  unfold panicHitAt
  rw [List.flatMap_eq_nil_iff]
  intro p hp
  rw [h]
  simp

lemma panicHitAt_single {lines : List String} {i : Nat}
    (hs : ∀ p ∈ panicCallPats, reSearch p (lines.getD i "") = true)
    (he : panicHasExemption (lines.getD i "") (linePrev lines i) = false) :
    panicHitAt lines i = [i + 1] := by
  unfold panicHitAt
  have h1 := hs (panicCallPats.getD 0 []) (by simp [panicCallPats])
  simp only [panicCallPats, List.flatMap_cons, List.flatMap_nil, List.append_nil]
  rw [show panicCallPats.getD 0 [] =
    [RTok.wb] ++ litToks "panic(" ++
      [RTok.star (Cls.notChars [')']), RTok.cls (Cls.chars [')'])] from rfl] at h1
  rw [h1, he]
  simp

/-- C5: a non-excluded `.go` file consisting of a line `panic("boom")`
surrounded by lines that contain no panic call, with no exemption pattern
on that line or the immediately preceding one, yields exactly the one
finding at that line and final exit code 1; the same file with
`// ALLOW-PANIC` inserted just before the panic line yields no finding and
final exit code 0. -/
theorem c5_panic_scenarios (name : String) (pre post : List String)
    (h1 : strEndsWith name ".go" = true)
    (h2 : panic_is_excluded name = false)
    (h3 : ∀ l ∈ pre ++ post, ∀ p ∈ panicCallPats, reSearch p l = false)
    (h4 : panicHasExemption "\tpanic(\"boom\")\n"
      (pre.getD (pre.length - 1) "") = false) :
    panic_run [⟨name, some (pre ++ "\tpanic(\"boom\")\n" :: post)⟩] =
      ([(name, pre.length + 1)], 1) ∧
    panic_run
        [⟨name, some (pre ++ "\t// ALLOW-PANIC\n" :: "\tpanic(\"boom\")\n" :: post)⟩] =
      ([], 0) := by
  have hguard : (!strEndsWith name ".go" || panic_is_excluded name) = false := by
    rw [h1, h2]
    rfl
  have d1 : ∀ p ∈ panicCallPats, reSearch p "\tpanic(\"boom\")\n" = true := by
    decide
  have d2 : ∀ p ∈ panicCallPats, reSearch p "\t// ALLOW-PANIC\n" = false := by
    decide
  have d3 : panicHasExemption "\tpanic(\"boom\")\n" "\t// ALLOW-PANIC\n" = true := by
    decide
  constructor
  · have hlen : (pre ++ "\tpanic(\"boom\")\n" :: post).length =
        pre.length + (post.length + 1) := by
      rw [List.length_append]
      rfl
    have hgetk : (pre ++ "\tpanic(\"boom\")\n" :: post).getD pre.length "" =
        "\tpanic(\"boom\")\n" := by
      rw [List.getD_append_right _ _ _ _ (le_refl _)]
      simp
    have hprev : linePrev (pre ++ "\tpanic(\"boom\")\n" :: post) pre.length =
        pre.getD (pre.length - 1) "" := by
      unfold linePrev
      by_cases h0 : pre.length = 0
      · rw [if_pos h0]
        have hp0 : pre = [] := List.eq_nil_of_length_eq_zero h0
        subst hp0
        rfl
      · rw [if_neg h0]
        exact List.getD_append _ _ _ _ (by omega)
    have hfind : panicFileFindings (pre ++ "\tpanic(\"boom\")\n" :: post) =
        [pre.length + 1] := by
      unfold panicFileFindings
      have hk : pre.length < (pre ++ "\tpanic(\"boom\")\n" :: post).length := by
        rw [hlen]; omega
      have hz : ∀ i, i < (pre ++ "\tpanic(\"boom\")\n" :: post).length →
          i ≠ pre.length →
          panicHitAt (pre ++ "\tpanic(\"boom\")\n" :: post) i = [] := by
        intro i hi hne
        rcases Nat.lt_or_ge i pre.length with hlt | hge
        · apply panicHitAt_nil_of_nosearch
          intro p hp
          rw [List.getD_append _ _ _ _ hlt]
          exact h3 _ (List.mem_append_left _ (getD_mem_of_lt hlt)) p hp
        · have hgt : pre.length < i := by omega
          apply panicHitAt_nil_of_nosearch
          intro p hp
          rw [hlen] at hi
          have hstep : (pre ++ "\tpanic(\"boom\")\n" :: post).getD i "" =
              post.getD (i - pre.length - 1) "" := by
            rw [List.getD_append_right _ _ _ _ (by omega)]
            obtain ⟨j, hj⟩ : ∃ j, i - pre.length = j + 1 :=
              ⟨i - pre.length - 1, by omega⟩
            rw [hj, List.getD_cons_succ]
            congr 1
          rw [hstep]
          exact h3 _ (List.mem_append_right _ (getD_mem_of_lt (by omega))) p hp
      rw [flatMap_range_eq_single hk hz]
      apply panicHitAt_single
      · intro p hp
        rw [hgetk]
        exact d1 p hp
      · rw [hgetk, hprev]
        exact h4
    show panic_step ([], 0) ⟨name, some (pre ++ "\tpanic(\"boom\")\n" :: post)⟩ =
      ([(name, pre.length + 1)], 1)
    unfold panic_step
    simp only [hguard, Bool.false_eq_true, if_false, hfind]
    simp
  · have hlen2 : (pre ++ "\t// ALLOW-PANIC\n" :: "\tpanic(\"boom\")\n" :: post).length =
        pre.length + (post.length + 2) := by
      rw [List.length_append]
      rfl
    have hgeta : (pre ++ "\t// ALLOW-PANIC\n" :: "\tpanic(\"boom\")\n" :: post).getD
        pre.length "" = "\t// ALLOW-PANIC\n" := by
      rw [List.getD_append_right _ _ _ _ (le_refl _)]
      simp
    have hgetb : (pre ++ "\t// ALLOW-PANIC\n" :: "\tpanic(\"boom\")\n" :: post).getD
        (pre.length + 1) "" = "\tpanic(\"boom\")\n" := by
      rw [List.getD_append_right _ _ _ _ (by omega)]
      have hs : pre.length + 1 - pre.length = 1 := by omega
      rw [hs]
      rfl
    have hfind2 : panicFileFindings
        (pre ++ "\t// ALLOW-PANIC\n" :: "\tpanic(\"boom\")\n" :: post) = [] := by
      unfold panicFileFindings
      apply flatMap_range_eq_nil
      intro i hi
      rw [hlen2] at hi
      rcases Nat.lt_or_ge i pre.length with hlt | hge
      · apply panicHitAt_nil_of_nosearch
        intro p hp
        rw [List.getD_append _ _ _ _ hlt]
        exact h3 _ (List.mem_append_left _ (getD_mem_of_lt hlt)) p hp
      · rcases Nat.lt_or_ge i (pre.length + 1) with hi1 | hi1
        · have hieq : i = pre.length := by omega
          subst hieq
          apply panicHitAt_nil_of_nosearch
          intro p hp
          rw [hgeta]
          exact d2 p hp
        · rcases Nat.lt_or_ge i (pre.length + 2) with hi2 | hi2
          · have hieq : i = pre.length + 1 := by omega
            subst hieq
            apply panicHitAt_nil_of_exempt
            rw [hgetb]
            have hpv : linePrev
                (pre ++ "\t// ALLOW-PANIC\n" :: "\tpanic(\"boom\")\n" :: post)
                (pre.length + 1) = "\t// ALLOW-PANIC\n" := by
              unfold linePrev
              rw [if_neg (by omega)]
              have hs : pre.length + 1 - 1 = pre.length := by omega
              rw [hs]
              exact hgeta
            rw [hpv]
            exact d3
          · apply panicHitAt_nil_of_nosearch
            intro p hp
            have hstep : (pre ++ "\t// ALLOW-PANIC\n" :: "\tpanic(\"boom\")\n" :: post).getD
                i "" = post.getD (i - pre.length - 2) "" := by
              rw [List.getD_append_right _ _ _ _ (by omega)]
              obtain ⟨j, hj⟩ : ∃ j, i - pre.length = j + 2 :=
                ⟨i - pre.length - 2, by omega⟩
              rw [hj, List.getD_cons_succ, List.getD_cons_succ]
              congr 1
            rw [hstep]
            exact h3 _ (List.mem_append_right _ (getD_mem_of_lt (by omega))) p hp
    show panic_step ([], 0)
        ⟨name, some (pre ++ "\t// ALLOW-PANIC\n" :: "\tpanic(\"boom\")\n" :: post)⟩ =
      ([], 0)
    unfold panic_step
    simp only [hguard, Bool.false_eq_true, if_false, hfind2]
    simp

theorem c5_panic_scenarios_witness :
    panic_run [⟨"main.go",
        some ["func main()\n", "\tpanic(\"boom\")\n", "\tunused()\n"]⟩] =
      ([("main.go", 2)], 1) ∧
    panic_run [⟨"main.go",
        some ["func main()\n", "\t// ALLOW-PANIC\n", "\tpanic(\"boom\")\n",
          "\tunused()\n"]⟩] =
      ([], 0) :=
  c5_panic_scenarios "main.go" ["func main()\n"] ["\tunused()\n"]
    (by decide) (by decide) (by decide) (by decide)
